import Mathlib

/-!
Shallow embedding of the real-time presence / message-delivery subsystem of
the social-app backend (NestJS + socket.io + Prisma), together with proofs
about the claims of its specification.

Source files embedded:
* `src/chat/chat.gateway.ts`   — connection handshake, presence maps, heartbeat,
  room fan-out (`ChatGateway`);
* `src/chat/chat.service.ts`   — `sendMessage`, `markMessagesAsRead`;
* `src/notification/notification.service.ts` — `createNotification`,
  `notifyPostLike`, `notifyPostComment`;
* `src/post/post.module.ts`    — `toggleLike`;
* `src/post/comments/comment.service.ts` — `createComment`, `deleteComment`.

Conventions: JS numbers are `Nat` (ids) or `Int` (timestamps, so that
`Date.now() - window` subtraction behaves as in JS); JS `Map`s are functions
into `Option`; JS `Set`s are duplicate-free `List`s with insertion order;
Prisma tables are `List`s of records; a fallible step returns `Except`;
socket.io rooms are a dedicated inductive (`chat:<id>` / `user:<id>`).
-/

namespace SocialApp

/-- A socket.io room name: either a conversation room `chat:<chatId>` or a
personal room `user:<userId>`. -/
inductive Room where
  | chat (chatId : Nat)
  | user (userId : Nat)
deriving DecidableEq, Repr

/-- An event broadcast to a room: room plus event name. -/
abbrev RoomEvent := Room × String

/-- JS `Set.add`: append the element if it is not already present
(insertion-ordered, duplicate-free). -/
def addUnique (s : List String) (x : String) : List String :=
  if x ∈ s then s else s ++ [x]

/-- JS `String.prototype.trim`: strip leading and trailing whitespace
(structurally recursive so that concrete runs evaluate). -/
def jsTrim (s : String) : String :=
  ⟨((s.data.dropWhile Char.isWhitespace).reverse.dropWhile
      Char.isWhitespace).reverse⟩

/-- In-memory state of `ChatGateway`:
`connectedUsers : Map<number, Set<string>>` (userId → socket ids),
`userLastSeen : Map<number, number>`,
the socket→rooms membership held by the socket.io server,
and `heartbeatIntervals : Map<string, Timeout>` (modelled as the list of
socket ids that currently have an armed heartbeat interval). -/
structure GatewayState where
  connectedUsers : Nat → Option (List String)
  userLastSeen : Nat → Option Nat
  rooms : String → List Room
  heartbeatIntervals : List String

/-- The gateway state of a freshly started process: all maps empty. -/
def emptyGateway : GatewayState :=
  { connectedUsers := fun _ => none
    userLastSeen := fun _ => none
    rooms := fun _ => []
    heartbeatIntervals := [] }

/-- Result of `handleConnection`: the state afterwards, whether the socket was
disconnected, the events emitted directly to the connecting socket, and the
events broadcast to rooms (the handshake broadcasts nothing). -/
structure ConnOutcome where
  state : GatewayState
  disconnected : Bool
  clientEvents : List String
  serverEvents : List RoomEvent

/-- The success path of `handleConnection` (chat.gateway.ts lines 124-146):
record the socket in `connectedUsers` (creating the entry if absent), stamp
`userLastSeen` with `Date.now()`, join the personal room `user:<userId>`, and
run `setupHeartbeat`, whose initial `ping()` arms the interval and emits a
`ping` event to the client.  No room broadcast is issued. -/
def registerConnection (st : GatewayState) (userId : Nat) (sid : String)
    (now : Nat) : ConnOutcome :=
  let sockets := addUnique ((st.connectedUsers userId).getD []) sid
  { state :=
      { connectedUsers := fun u =>
          if u = userId then some sockets else st.connectedUsers u
        userLastSeen := fun u =>
          if u = userId then some now else st.userLastSeen u
        rooms := fun s =>
          if s = sid then (st.rooms sid) ++ [Room.user userId] else st.rooms s
        heartbeatIntervals := st.heartbeatIntervals ++ [sid] }
    disconnected := false
    clientEvents := ["ping"]
    serverEvents := [] }

/-- Embeds `handleConnection` (chat.gateway.ts lines 47-160).  The cookie-extracted
token is `token?` (`none` when no `token=` cookie matched); `verify` is the
JWT verifier returning the `userId` field of the payload (`none` when
verification throws or the payload has no `userId`); `users` is the set of
user ids present in the durable store.  Every failure path calls
`client.disconnect()` and returns without touching any state and without
emitting any event. -/
def handleConnection (verify : String → Option Nat) (users : List Nat)
    (st : GatewayState) (token? : Option String) (sid : String) (now : Nat) :
    ConnOutcome :=
  match token? with
  | none => ⟨st, true, [], []⟩
  | some token =>
    if token = "" then ⟨st, true, [], []⟩
    else if (jsTrim token).length = 0 then ⟨st, true, [], []⟩
    else if (token.splitOn ".").length ≠ 3 then ⟨st, true, [], []⟩
    else
      match verify token with
      | none => ⟨st, true, [], []⟩
      | some userId =>
        if userId = 0 then ⟨st, true, [], []⟩
        else if userId ∈ users then registerConnection st userId sid now
        else ⟨st, true, [], []⟩

/-- Embeds `handleDisconnect` (chat.gateway.ts lines 162-193): when the socket was
authenticated, remove its id from the owner's socket set; when the set becomes
empty, delete the entry and stamp `userLastSeen = Date.now()`; finally clear
the heartbeat interval.  Returns the new state and the room broadcasts issued
(there are none). -/
def handleDisconnect (st : GatewayState) (userId? : Option Nat) (sid : String)
    (now : Nat) : GatewayState × List RoomEvent :=
  match userId? with
  | none => (st, [])
  | some userId =>
    match st.connectedUsers userId with
    | none =>
      ({ st with heartbeatIntervals := st.heartbeatIntervals.erase sid }, [])
    | some sockets =>
      let sockets := sockets.erase sid
      if sockets = [] then
        ({ connectedUsers := fun u =>
             if u = userId then none else st.connectedUsers u
           userLastSeen := fun u =>
             if u = userId then some now else st.userLastSeen u
           rooms := st.rooms
           heartbeatIntervals := st.heartbeatIntervals.erase sid }, [])
      else
        ({ st with
           connectedUsers := fun u =>
             if u = userId then some sockets else st.connectedUsers u
           heartbeatIntervals := st.heartbeatIntervals.erase sid }, [])

/-- Embeds `isUserOnline` (chat.gateway.ts lines 554-556):
`connectedUsers.has(userId) && connectedUsers.get(userId)!.size > 0`. -/
def isUserOnline (st : GatewayState) (userId : Nat) : Bool :=
  match st.connectedUsers userId with
  | some sockets => sockets.length > 0
  | none => false

/-- The set of currently registered live connections for an identity
(the empty set when the identity has no presence entry). -/
def connectionSet (st : GatewayState) (userId : Nat) : List String :=
  (st.connectedUsers userId).getD []

/-- Successive successful connections of one identity (fold of the success
path of `handleConnection` over a list of socket ids). -/
def connectAll (st : GatewayState) (userId : Nat) (sids : List String)
    (now : Nat) : GatewayState :=
  sids.foldl (fun s sid => (registerConnection s userId sid now).state) st

/-- Successive disconnections of one identity's sockets. -/
def disconnectAll (st : GatewayState) (userId : Nat) (sids : List String)
    (now : Nat) : GatewayState :=
  sids.foldl (fun s sid => (handleDisconnect s (some userId) sid now).1) st

/-! ### Heartbeat monitor (chat.gateway.ts lines 196-243)

Per-connection timer state: `armed` is the set of `setTimeout` timers
currently armed for this connection (a timer leaves it when it fires or is
`clearTimeout`-ed), `pingTimeout` is the `client.pingTimeout` field (the
handle most recently stored there), `intervalOn` is whether the
`setInterval` registered in `heartbeatIntervals` is still armed. -/

structure HbState where
  armed : List Nat
  pingTimeout : Option Nat
  intervalOn : Bool
  disconnected : Bool
  nextTimerId : Nat
deriving DecidableEq, Repr

/-- Embeds `cleanupHeartbeat` (lines 233-243): `clearInterval` the probe interval and
`clearTimeout` the handle stored in `client.pingTimeout`, then clear the
field. -/
def hbCleanup (s : HbState) : HbState :=
  { s with
    intervalOn := false
    armed := match s.pingTimeout with
      | some t => s.armed.erase t
      | none => s.armed
    pingTimeout := none }

/-- The `ping` closure (lines 200-213): when the client is already
disconnected, run `cleanupHeartbeat`; otherwise arm a fresh timeout with
`setTimeout` and overwrite `client.pingTimeout` with the new handle — the
previous handle, if any, is NOT cleared. -/
def hbPing (s : HbState) : HbState :=
  if s.disconnected then hbCleanup s
  else
    { s with
      armed := s.armed ++ [s.nextTimerId]
      pingTimeout := some s.nextTimerId
      nextTimerId := s.nextTimerId + 1 }

/-- The `pong` listener (lines 221-226): `clearTimeout(client.pingTimeout)`
and clear the field, when set. -/
def hbPong (s : HbState) : HbState :=
  match s.pingTimeout with
  | some t => { s with armed := s.armed.erase t, pingTimeout := none }
  | none => s

/-- The armed timeout stored in `client.pingTimeout` fires (lines 206-210):
the timer leaves the armed set, the callback runs `cleanupHeartbeat` and
forces `client.disconnect()`. -/
def hbFire (s : HbState) : HbState :=
  match s.pingTimeout with
  | some t =>
    if t ∈ s.armed then
      { hbCleanup { s with armed := s.armed.erase t } with disconnected := true }
    else s
  | none => s

/-- State of a connection before `setupHeartbeat` runs. -/
def hbInit : HbState :=
  { armed := [], pingTimeout := none, intervalOn := false
    disconnected := false, nextTimerId := 0 }

/-- Embeds `setupHeartbeat` (lines 196-231): an immediate first `ping()`, then the
probe interval is registered. -/
def hbSetupHeartbeat (s : HbState) : HbState :=
  { hbPing s with intervalOn := true }

/-- The probe interval length (30000 ms) of `setupHeartbeat`. -/
def heartbeatInterval : Nat := 30000

/-- The probe timeout bound (15000 ms) of `setupHeartbeat`. -/
def heartbeatTimeout : Nat := 15000

/-- The events that can reach a connection's heartbeat state machine. -/
inductive HbEvent where
  | ping | pong | fire | cleanup
deriving DecidableEq, Repr

/-- One heartbeat transition. -/
def hbStep (s : HbState) : HbEvent → HbState
  | .ping => hbPing s
  | .pong => hbPong s
  | .fire => hbFire s
  | .cleanup => hbCleanup s

/-- A run of the heartbeat state machine over a trace of events. -/
def hbRun (s : HbState) (es : List HbEvent) : HbState :=
  es.foldl hbStep s

/-- A trace is timely when no `ping` is delivered while a probe timeout is
still pending: this is what the real timer schedule guarantees, because the
timeout bound (15 s) is shorter than the probe interval (30 s), so the
pending timeout fires or is cleared by a pong before the next interval
tick. -/
def timely (s : HbState) : List HbEvent → Bool
  | [] => true
  | e :: es =>
    (if e = HbEvent.ping then s.pingTimeout.isNone else true) &&
      timely (hbStep s e) es

/-- The heartbeat invariant: the armed timeout timers are exactly the one
stored in `client.pingTimeout` (in particular there is at most one). -/
def hbInv (s : HbState) : Prop :=
  s.armed = s.pingTimeout.toList

/-! ### Chat service data model (chat.service.ts) -/

/-- A row of the `ChatMember` table. -/
structure ChatMemberRec where
  chatId : Nat
  userId : Nat
deriving DecidableEq, Repr

/-- A row of the `Chat` table (`type` is `"direct"` or `"group"`). -/
structure ChatRec where
  id : Nat
  type : String
deriving DecidableEq, Repr

/-- A row of the `Message` table. -/
structure MessageRec where
  id : Nat
  chatId : Nat
  senderId : Nat
  content : String
  fileId : Option Nat
  replyToId : Option Nat
deriving DecidableEq, Repr

/-- A row of the `FriendShip` table. -/
structure FriendshipRec where
  user1Id : Nat
  user2Id : Nat
  status : String
deriving DecidableEq, Repr

/-- A row of the `UserSettings` table (only the `whoCanMessage` column is
consulted here: `"everyone"` / `"friends"` / `"nobody"`). -/
structure SettingsRec where
  userId : Nat
  whoCanMessage : String
deriving DecidableEq, Repr

/-- A row of the `MessageRead` table; the schema has a unique index on
`(messageId, userId)`. -/
structure ReadRec where
  messageId : Nat
  userId : Nat
deriving DecidableEq, Repr

/-- The durable store as seen by `ChatService`, plus the object store
(`storedFiles` holds the ids of uploaded objects; `nextFileId` /
`nextMessageId` model the id sequences). -/
structure Db where
  chats : List ChatRec
  chatMembers : List ChatMemberRec
  userSettings : List SettingsRec
  friendShips : List FriendshipRec
  messages : List MessageRec
  messageReads : List ReadRec
  storedFiles : List Nat
  nextMessageId : Nat
  nextFileId : Nat
deriving DecidableEq, Repr

/-- Error taxonomy of `ChatService.sendMessage` / `markMessagesAsRead`. -/
inductive SendError where
  | validationError
  | notAMember
  | policyForbidden
  | invalidReply
  | persistenceFailure
deriving DecidableEq, Repr

/-- An accepted friendship between the two users, in either direction
(chat.service.ts lines 385-392). -/
def acceptedFriends (db : Db) (a b : Nat) : Bool :=
  db.friendShips.any fun f =>
    ((f.user1Id = a && f.user2Id = b) || (f.user1Id = b && f.user2Id = a)) &&
      f.status = "accepted"

/-- The privacy-settings check of `sendMessage` for direct chats
(chat.service.ts lines 360-400): look up the chat, and when it is a direct
chat find the other member and consult their current `whoCanMessage`
setting; `"nobody"` always violates, `"friends"` violates unless an accepted
friendship exists in either direction. -/
def directPolicyViolated (db : Db) (chatId userId : Nat) : Bool :=
  match db.chats.find? fun c => c.id = chatId with
  | some chat =>
    if chat.type = "direct" then
      match (db.chatMembers.filter fun m => m.chatId = chatId).find?
          (fun m => !(m.userId = userId)) with
      | some otherMember =>
        match db.userSettings.find? fun s => s.userId = otherMember.userId
        with
        | some settings =>
          if settings.whoCanMessage = "nobody" then true
          else if settings.whoCanMessage = "friends" then
            !acceptedFriends db userId otherMember.userId
          else false
        | none => false
      | none => false
    else false
  | none => false

/-- Embeds `ChatService.sendMessage` (chat.service.ts lines 337-540), up to and
including message persistence.  `hasFile` is whether an attachment was
supplied; `persistFails` injects a failure of the `message.create` write
(the database throwing), which in the source propagates out of the method —
there is no try/catch around it and no compensating cleanup of the uploaded
object.  Returns the resulting store and either the created message row or
the error thrown. -/
def sendMessage (db : Db) (chatId userId : Nat) (content : String)
    (hasFile : Bool) (replyToId : Option Nat) (persistFails : Bool) :
    Db × Except SendError MessageRec :=
  if content.length > 10000 then (db, .error .validationError)
  else if jsTrim content = "" && !hasFile then (db, .error .validationError)
  else if !(db.chatMembers.any fun m => m.chatId = chatId && m.userId = userId)
  then (db, .error .notAMember)
  else if directPolicyViolated db chatId userId then
    (db, .error .policyForbidden)
    else if replyToId.any fun rid =>
        !(db.messages.any fun m => m.id = rid && m.chatId = chatId)
    then (db, .error .invalidReply)
    else
      let fileId? := if hasFile then some db.nextFileId else none
      let db :=
        if hasFile then
          { db with
            storedFiles := db.storedFiles ++ [db.nextFileId]
            nextFileId := db.nextFileId + 1 }
        else db
      if persistFails then (db, .error .persistenceFailure)
      else
        let msg : MessageRec :=
          { id := db.nextMessageId, chatId := chatId, senderId := userId
            content := content, fileId := fileId?, replyToId := replyToId }
        ({ db with
           messages := db.messages ++ [msg]
           nextMessageId := db.nextMessageId + 1 }, .ok msg)

/-- The unread messages a reader would mark in a chat: messages of the chat
authored by someone else that have no `MessageRead` row for this reader
(chat.service.ts lines 607-618). -/
def unreadFor (db : Db) (chatId userId : Nat) : List MessageRec :=
  db.messages.filter fun m =>
    m.chatId = chatId && !(m.senderId = userId) &&
      !(db.messageReads.any fun r => r.messageId = m.id && r.userId = userId)

/-- Embeds `createMany` with `skipDuplicates` against the unique `(messageId,
userId)` index: insert each row unless an equal pair is already present. -/
def insertReads (reads : List ReadRec) (batch : List ReadRec) : List ReadRec :=
  batch.foldl (fun acc r => if r ∈ acc then acc else acc ++ [r]) reads

/-- Embeds `ChatService.markMessagesAsRead` (chat.service.ts lines 593-637). -/
def markMessagesAsRead (db : Db) (chatId userId : Nat) :
    Db × Except SendError (Nat × List Nat) :=
  if !(db.chatMembers.any fun m => m.chatId = chatId && m.userId = userId)
  then (db, .error .notAMember)
  else
    let unread := unreadFor db chatId userId
    if unread = [] then (db, .ok (0, []))
    else
      let db' :=
        { db with
          messageReads :=
            insertReads db.messageReads
              (unread.map fun m => ⟨m.id, userId⟩) }
      (db', .ok (unread.length, unread.map fun m => m.id))

/-! ### Notification service (notification.service.ts) -/

/-- A row of the `Notification` table. -/
structure NotifRec where
  userId : Nat
  type : String
  sourceId : String
  content : String
  isRead : Bool
  createdAt : Int
deriving DecidableEq, Repr

/-- The dedup window of `notifyPostLike`: 24 hours in milliseconds. -/
def likeWindow : Int := 24 * 60 * 60 * 1000

/-- The dedup window of `notifyPostComment`: 5 minutes in milliseconds. -/
def commentWindow : Int := 5 * 60 * 1000

/-- Embeds `createNotification` (notification.service.ts lines 22-42): insert the
record and push it to the recipient's personal room via
`sendNotificationToUser`. -/
def createNotification (notifs : List NotifRec) (now : Int) (userId : Nat)
    (type sourceId content : String) :
    List NotifRec × NotifRec × List RoomEvent :=
  let n : NotifRec :=
    { userId := userId, type := type, sourceId := sourceId
      content := content, isRead := false, createdAt := now }
  (notifs ++ [n], n, [(Room.user userId, "notification")])

/-- Embeds `notifyPostLike` (notification.service.ts lines 129-154): suppressed when
a `post_like` record for the same recipient and post exists within the last
24 hours, else created and fanned out. -/
def notifyPostLike (notifs : List NotifRec) (now : Int) (userId : Nat)
    (likerName : String) (postId : Nat) : List NotifRec × List RoomEvent :=
  let existing := notifs.find? fun n =>
    n.userId = userId && n.type = "post_like" &&
      n.sourceId = toString postId && now - likeWindow ≤ n.createdAt
  match existing with
  | some _ => (notifs, [])
  | none =>
    let (notifs', _, events) :=
      createNotification notifs now userId "post_like" (toString postId)
        (likerName ++ " оценил ваш пост")
    (notifs', events)

/-- Embeds `notifyPostComment` (notification.service.ts lines 156-181): suppressed
when a `post_comment` record for the same recipient and post exists within
the last 5 minutes, else created and fanned out. -/
def notifyPostComment (notifs : List NotifRec) (now : Int) (userId : Nat)
    (commenterName : String) (postId : Nat) :
    List NotifRec × List RoomEvent :=
  let recent := notifs.find? fun n =>
    n.userId = userId && n.type = "post_comment" &&
      n.sourceId = toString postId && now - commentWindow ≤ n.createdAt
  match recent with
  | some _ => (notifs, [])
  | none =>
    let (notifs', _, events) :=
      createNotification notifs now userId "post_comment" (toString postId)
        (commenterName ++ " прокомментировал ваш пост")
    (notifs', events)

/-! ### Post / comment operations touching notifications
(post.module.ts `toggleLike`, comment.service.ts `createComment` /
`deleteComment`) -/

/-- A row of the `Post` table (fields used here). -/
structure PostRec where
  id : Nat
  authorId : Nat
deriving DecidableEq, Repr

/-- A row of the `Like` table (unique on `(userId, postId)`). -/
structure LikeRec where
  userId : Nat
  postId : Nat
deriving DecidableEq, Repr

/-- A row of the `Comment` table (fields used here). -/
structure CommentRec where
  id : Nat
  postId : Nat
  authorId : Nat
deriving DecidableEq, Repr

/-- A row of the `CommentLike` table. -/
structure CommentLikeRec where
  userId : Nat
  commentId : Nat
deriving DecidableEq, Repr

/-- The durable store as seen by the post/comment/notification paths.
`users` maps a user id to the display name used in notification texts
(`none`: no such user). -/
structure PostDb where
  posts : List PostRec
  comments : List CommentRec
  likes : List LikeRec
  commentLikes : List CommentLikeRec
  users : Nat → Option String
  notifications : List NotifRec
  nextCommentId : Nat
deriving Inhabited

/-- Errors thrown by the post/comment operations. -/
inductive PostError where
  | notFound
  | forbidden
  | validationError
deriving DecidableEq, Repr

/-- Embeds `PostService.toggleLike` (post.module.ts lines 822-914).  Unliking
deletes the like row and, when the liker is not the post's author, deletes
every `post_like` notification for `(post author, postId)` created within the
last 24 hours; liking creates the like row and runs `notifyPostLike` when the
liker is not the author and exists.  Returns the store, the room events
emitted, and `isLiked` with the like count. -/
def toggleLike (db : PostDb) (now : Int) (userId postId : Nat) :
    PostDb × List RoomEvent × Except PostError (Bool × Nat) :=
  match db.posts.find? fun p => p.id = postId with
  | none => (db, [], .error .notFound)
  | some post =>
    match db.likes.find? fun l => l.userId = userId && l.postId = postId with
    | some _ =>
      let likes' := db.likes.eraseP fun l =>
        l.userId = userId && l.postId = postId
      let notifs' :=
        if post.authorId = userId then db.notifications
        else db.notifications.filter fun n =>
          !(n.userId = post.authorId && n.type = "post_like" &&
            n.sourceId = toString postId && now - likeWindow ≤ n.createdAt)
      let likesCount := (likes'.filter fun l => l.postId = postId).length
      ({ db with likes := likes', notifications := notifs' }, [],
        .ok (false, likesCount))
    | none =>
      let likes' := db.likes ++ [{ userId := userId, postId := postId }]
      let likesCount := (likes'.filter fun l => l.postId = postId).length
      if post.authorId = userId then
        ({ db with likes := likes' }, [], .ok (true, likesCount))
      else
        match db.users userId with
        | none => ({ db with likes := likes' }, [], .ok (true, likesCount))
        | some likerName =>
          let (notifs', events) :=
            notifyPostLike db.notifications now post.authorId likerName postId
          ({ db with likes := likes', notifications := notifs' }, events,
            .ok (true, likesCount))

/-- Embeds `CommentService.createComment` (comment.service.ts lines 100-188):
validate the content, create the comment row, and when the commenter is not
the post's author run `notifyPostComment`. -/
def createComment (db : PostDb) (now : Int) (userId postId : Nat)
    (content : String) :
    PostDb × List RoomEvent × Except PostError CommentRec :=
  if (jsTrim content).length = 0 then (db, [], .error .validationError)
  else if content.length > 2000 then (db, [], .error .validationError)
  else
    match db.posts.find? fun p => p.id = postId with
    | none => (db, [], .error .notFound)
    | some post =>
      let c : CommentRec :=
        { id := db.nextCommentId, postId := postId, authorId := userId }
      let db' := { db with
        comments := db.comments ++ [c]
        nextCommentId := db.nextCommentId + 1 }
      if post.authorId = userId then (db', [], .ok c)
      else
        let commenterName := (db.users userId).getD ""
        let (notifs', events) :=
          notifyPostComment db'.notifications now post.authorId commenterName
            postId
        ({ db' with notifications := notifs' }, events, .ok c)

/-- Embeds `CommentService.deleteComment` (comment.service.ts lines 281-329): after
the permission check, delete the comment's likes, delete the notifications
with `sourceId = commentId.toString()` and `type = 'comment'`, and delete the
comment.  (Note the filter values: the type tag and source id it deletes by.)
The post author is read through the comment's `post` relation; the relation
is total by the schema's foreign key, modelled with a default of 0. -/
def deleteComment (db : PostDb) (requesterId commentId : Nat) :
    PostDb × Except PostError Bool :=
  match db.comments.find? fun c => c.id = commentId with
  | none => (db, .error .notFound)
  | some comment =>
    let postAuthorId :=
      ((db.posts.find? fun p => p.id = comment.postId).map
        fun p => p.authorId).getD 0
    if comment.authorId ≠ requesterId && postAuthorId ≠ requesterId then
      (db, .error .forbidden)
    else
      ({ db with
         commentLikes := db.commentLikes.filter fun cl =>
           !(cl.commentId = commentId)
         notifications := db.notifications.filter fun n =>
           !(n.sourceId = toString commentId && n.type = "comment")
         comments := db.comments.eraseP fun c => c.id = commentId }, .ok true)

/-! ### Message fan-out (chat.gateway.ts `handleMessage`, lines 295-316) -/

/-- The room broadcasts issued by `handleMessage` for one created message:
`message:new` to the conversation room `chat:<chatId>`, then, for every chat
member, `message:new` and `conversation:updated` to the member's personal
room. -/
def handleMessageEmits (chatId : Nat) (members : List Nat) : List RoomEvent :=
  (Room.chat chatId, "message:new") ::
    members.flatMap fun m =>
      [(Room.user m, "message:new"), (Room.user m, "conversation:updated")]

/-- The events a connection joined to exactly the rooms `rs` receives from a
list of room broadcasts (socket.io delivers an emit to a socket iff the
socket is in the target room). -/
def deliveredTo (rs : List Room) (emits : List RoomEvent) : List String :=
  (emits.filter fun e => e.1 ∈ rs).map fun e => e.2

/-- Concrete store for the C3 witness: direct chat 1 between users 10 and
20, recipient 20 restricting messages to `"nobody"`. -/
def c3dbNobody : Db :=
  { chats := [⟨1, "direct"⟩], chatMembers := [⟨1, 10⟩, ⟨1, 20⟩]
    userSettings := [⟨20, "nobody"⟩], friendShips := []
    messages := [], messageReads := [], storedFiles := []
    nextMessageId := 0, nextFileId := 0 }

/-- Concrete store for the C3 witness: recipient 20 restricts to
`"friends"` and is not friends with the sender. -/
def c3dbFriendsNoF : Db :=
  { c3dbNobody with userSettings := [⟨20, "friends"⟩] }

/-- Concrete store for the C3 witness: as `c3dbFriendsNoF` but with an
accepted friendship between 10 and 20. -/
def c3dbFriends : Db :=
  { c3dbFriendsNoF with friendShips := [⟨20, 10, "accepted"⟩] }

/-- Concrete store for C4: group chat 1 with member 10, empty object
store. -/
def c4db : Db :=
  { chats := [⟨1, "group"⟩], chatMembers := [⟨1, 10⟩], userSettings := []
    friendShips := [], messages := [], messageReads := [], storedFiles := []
    nextMessageId := 0, nextFileId := 0 }

/-- Concrete store for the C5 witness: chat 1 with members 10 and 20, three
messages (two by 20, one by 10), no receipts yet. -/
def c5db : Db :=
  { chats := [⟨1, "direct"⟩], chatMembers := [⟨1, 10⟩, ⟨1, 20⟩]
    userSettings := [], friendShips := []
    messages := [⟨0, 1, 20, "x", none, none⟩, ⟨1, 1, 10, "y", none, none⟩,
      ⟨2, 1, 20, "z", none, none⟩]
    messageReads := [], storedFiles := [], nextMessageId := 3
    nextFileId := 0 }

/-- Concrete store for C7: post 7 authored by user 2; users 1 and 2 exist;
no likes, comments or notifications yet; the next comment id is 5. -/
def c7db : PostDb :=
  { posts := [⟨7, 2⟩], comments := [], likes := [], commentLikes := []
    users := fun u => if u = 1 then some "U" else
      if u = 2 then some "A" else none
    notifications := [], nextCommentId := 5 }

/-! ## Theorems -/

/-! ### C1: presence is the non-emptiness of the connection set -/

theorem connectedUsers_register (st : GatewayState) (u : Nat) (sid : String)
    (now : Nat) :
    (registerConnection st u sid now).state.connectedUsers u =
      some (addUnique (connectionSet st u) sid) := by
  simp [registerConnection, connectionSet]

theorem connectAll_connectedUsers (u : Nat) (now : Nat) :
    ∀ (sids : List String) (st : GatewayState) (s : List String),
      st.connectedUsers u = some s →
      (connectAll st u sids now).connectedUsers u =
        some (sids.foldl addUnique s) := by
  intro sids
  induction sids with
  | nil => intro st s h; simpa [connectAll] using h
  | cons a rest ih =>
    intro st s h
    have h1 :
        (registerConnection st u a now).state.connectedUsers u =
          some (addUnique s a) := by
      rw [connectedUsers_register, connectionSet, h]
      rfl
    simpa [connectAll, List.foldl_cons] using
      ih (registerConnection st u a now).state (addUnique s a) h1

theorem foldl_addUnique_of_nodup :
    ∀ (sids : List String) (s : List String),
      (∀ x ∈ sids, x ∉ s) → sids.Nodup →
      sids.foldl addUnique s = s ++ sids := by
  intro sids
  induction sids with
  | nil => intro s _ _; simp
  | cons a rest ih =>
    intro s hdisj hnodup
    have ha : a ∉ s := hdisj a (by simp)
    have h1 : addUnique s a = s ++ [a] := by simp [addUnique, ha]
    have hdisj' : ∀ x ∈ rest, x ∉ s ++ [a] := by
      intro x hx
      simp only [List.mem_append, List.mem_singleton]
      rintro (h | rfl)
      · exact hdisj x (by simp [hx]) h
      · exact (List.nodup_cons.mp hnodup).1 hx
    have := ih (s ++ [a]) hdisj' (List.nodup_cons.mp hnodup).2
    simp only [List.foldl_cons, h1, this, List.append_assoc,
      List.singleton_append]

theorem disconnectAll_connectedUsers (u : Nat) (now : Nat) :
    ∀ (sids keep : List String) (st : GatewayState),
      st.connectedUsers u = some (sids ++ keep) → keep ≠ [] →
      (disconnectAll st u sids now).connectedUsers u = some keep := by
  intro sids
  induction sids with
  | nil => intro keep st h _; simpa [disconnectAll] using h
  | cons a rest ih =>
    intro keep st h hkeep
    have hne : rest ++ keep ≠ [] := by
      simp only [ne_eq, List.append_eq_nil]
      rintro ⟨-, rfl⟩
      exact hkeep rfl
    have h1 :
        (handleDisconnect st (some u) a now).1.connectedUsers u =
          some (rest ++ keep) := by
      simp only [handleDisconnect, h, List.cons_append,
        List.erase_cons_head, hne]
      simp
    simpa [disconnectAll, List.foldl_cons] using
      ih keep (handleDisconnect st (some u) a now).1 h1 hkeep

/-- C1.  `isUserOnline(I)` is true iff the connection set registered for I is
non-empty; moreover, starting from a state with no presence entry for I,
after the successful connections `l ++ [x]` (N connections, all distinct) and
the disconnections `l` (N-1 of them) the identity is still online, and after
the final disconnection of `x` it is offline and its entry is removed from
the presence map. -/
theorem presence_online_iff_connections :
    (∀ (st : GatewayState) (u : Nat),
      isUserOnline st u = true ↔ connectionSet st u ≠ []) ∧
    (∀ (st : GatewayState) (u : Nat) (l : List String) (x : String)
        (now now' now'' : Nat),
      (l ++ [x]).Nodup → st.connectedUsers u = none →
      isUserOnline (disconnectAll (connectAll st u (l ++ [x]) now) u l now') u
          = true ∧
      isUserOnline
          (handleDisconnect
            (disconnectAll (connectAll st u (l ++ [x]) now) u l now')
            (some u) x now'').1 u = false ∧
      (handleDisconnect
          (disconnectAll (connectAll st u (l ++ [x]) now) u l now')
          (some u) x now'').1.connectedUsers u = none) := by
  have hiff : ∀ (st : GatewayState) (u : Nat),
      isUserOnline st u = true ↔ connectionSet st u ≠ [] := by
    intro st u
    unfold isUserOnline connectionSet
    match h : st.connectedUsers u with
    | some s => simp [List.length_pos]
    | none => simp
  refine ⟨hiff, ?_⟩
  intro st u l x now now' now'' hnodup hnone
  -- after the N connections, the entry is exactly `l ++ [x]`
  have hconn :
      (connectAll st u (l ++ [x]) now).connectedUsers u = some (l ++ [x]) := by
    match hl : l ++ [x], hnodup, List.append_ne_nil_of_right_ne_nil l
        (by simp : [x] ≠ []) with
    | hd :: tl, hnodup', _ =>
      have h1 :
          (registerConnection st u hd now).state.connectedUsers u =
            some [hd] := by
        rw [connectedUsers_register, connectionSet, hnone]
        simp [addUnique]
      have h2 := connectAll_connectedUsers u now tl
        (registerConnection st u hd now).state [hd] h1
      have h3 : tl.foldl addUnique [hd] = hd :: tl := by
        have := foldl_addUnique_of_nodup tl [hd]
          (by
            intro y hy
            simp only [List.mem_singleton]
            rintro rfl
            exact (List.nodup_cons.mp hnodup').1 hy)
          (List.nodup_cons.mp hnodup').2
        simpa using this
      simp only [connectAll, List.foldl_cons] at h2 ⊢
      rw [h2, h3]
  -- after the first N-1 disconnections, the entry is exactly `[x]`
  have hdisc :
      (disconnectAll (connectAll st u (l ++ [x]) now) u l now').connectedUsers
        u = some [x] :=
    disconnectAll_connectedUsers u now' l [x] _ hconn (by simp)
  refine ⟨?_, ?_, ?_⟩
  · rw [hiff]
    simp [connectionSet, hdisc]
  · simp [isUserOnline, handleDisconnect, hdisc, List.erase_cons_head]
  · simp [handleDisconnect, hdisc, List.erase_cons_head]

/-- Witness for C1 at a concrete input: three distinct connections of
identity 1, two disconnections leave it online, the third leaves it offline
with the presence entry removed. -/
theorem presence_online_iff_connections_witness :
    isUserOnline
        (disconnectAll (connectAll emptyGateway 1 (["a", "b"] ++ ["c"]) 10) 1
          ["a", "b"] 20) 1 = true ∧
    isUserOnline
        (handleDisconnect
          (disconnectAll (connectAll emptyGateway 1 (["a", "b"] ++ ["c"]) 10)
            1 ["a", "b"] 20) (some 1) "c" 30).1 1 = false ∧
    (handleDisconnect
        (disconnectAll (connectAll emptyGateway 1 (["a", "b"] ++ ["c"]) 10) 1
          ["a", "b"] 20) (some 1) "c" 30).1.connectedUsers 1 = none :=
  presence_online_iff_connections.2 emptyGateway 1 ["a", "b"] "c" 10 20 30
    (by decide) rfl

/-! ### C2: failed handshakes register nothing and emit nothing -/

/-- C2.  When the credential is absent from the cookie header, the token is
not three dot-separated segments, verification fails, or the verified
identity is not in the durable store, `handleConnection` closes the
connection immediately, emits no event to the client, broadcasts nothing,
and leaves the entire gateway state (presence registry, rooms, heartbeats)
untouched — no partial registration is observable. -/
theorem handshake_failure_no_partial_state
    (verify : String → Option Nat) (users : List Nat) (st : GatewayState)
    (token? : Option String) (sid : String) (now : Nat)
    (hfail : token? = none ∨
      ∃ t, token? = some t ∧
        ((t.splitOn ".").length ≠ 3 ∨ verify t = none ∨
          ∃ uid, verify t = some uid ∧ uid ∉ users)) :
    handleConnection verify users st token? sid now = ⟨st, true, [], []⟩ := by
  rcases hfail with rfl | ⟨t, rfl, hcond⟩
  · rfl
  · by_cases h1 : t = ""
    · simp [handleConnection, h1]
    · by_cases h2 : (jsTrim t).length = 0
      · simp [handleConnection, h1, h2]
      · by_cases h3 : (t.splitOn ".").length = 3
        · rcases hcond with h3' | hv | ⟨uid, hv, hu⟩
          · exact absurd h3 h3'
          · simp [handleConnection, h1, h2, h3, hv]
          · by_cases h0 : uid = 0 <;>
              simp [handleConnection, h1, h2, h3, hv, h0, hu]
        · simp [handleConnection, h1, h2, h3]

/-- Witness for C2: a structurally valid token whose verification fails, at a
concrete state; the connection is closed and nothing changes. -/
theorem handshake_failure_no_partial_state_witness :
    handleConnection (fun _ => none) [5] emptyGateway (some "a.b.c") "s1" 7 =
      ⟨emptyGateway, true, [], []⟩ :=
  handshake_failure_no_partial_state (fun _ => none) [5] emptyGateway
    (some "a.b.c") "s1" 7 (Or.inr ⟨"a.b.c", rfl, Or.inr (Or.inl rfl)⟩)

/-! ### C8: register/unregister bookkeeping and (absence of) presence events -/

/-- C8 counterexample.  At a concrete input where the registered connection
is the identity's very first one (the presence entry is empty beforehand),
`register` broadcasts nothing — in particular no `presence:online` event —
and the disconnection that empties the set broadcasts nothing — in
particular no `presence:offline` event.  This refutes the claim that such
events are emitted. -/
theorem presence_no_event_on_first_connection :
    connectionSet emptyGateway 1 = [] ∧
    (registerConnection emptyGateway 1 "a" 100).serverEvents = [] ∧
    (handleDisconnect (registerConnection emptyGateway 1 "a" 100).state
        (some 1) "a" 200).1.connectedUsers 1 = none ∧
    (handleDisconnect (registerConnection emptyGateway 1 "a" 100).state
        (some 1) "a" 200).2 = [] := by
  refine ⟨rfl, rfl, ?_, ?_⟩ <;>
    simp [handleDisconnect, registerConnection, emptyGateway, addUnique]

/-- C8 (amended).  `register` adds the connection to the identity's set and
marks last-seen = now on every successful connection; `unregister` removes
the connection and, exactly when the set becomes empty, deletes the presence
entry and stamps last-seen = now (otherwise last-seen is untouched).
Neither operation emits any presence event to observers. -/
theorem presence_register_unregister_behavior (st : GatewayState) (u : Nat)
    (sid : String) (now : Nat) :
    ((registerConnection st u sid now).state.connectedUsers u =
        some (addUnique (connectionSet st u) sid) ∧
      (registerConnection st u sid now).state.userLastSeen u = some now ∧
      (registerConnection st u sid now).serverEvents = []) ∧
    (∀ s, st.connectedUsers u = some s → s.erase sid = [] →
      (handleDisconnect st (some u) sid now).1.connectedUsers u = none ∧
      (handleDisconnect st (some u) sid now).1.userLastSeen u = some now ∧
      (handleDisconnect st (some u) sid now).2 = []) ∧
    (∀ s, st.connectedUsers u = some s → s.erase sid ≠ [] →
      (handleDisconnect st (some u) sid now).1.connectedUsers u =
        some (s.erase sid) ∧
      (handleDisconnect st (some u) sid now).1.userLastSeen =
        st.userLastSeen ∧
      (handleDisconnect st (some u) sid now).2 = []) := by
  refine ⟨⟨?_, ?_, rfl⟩, ?_, ?_⟩
  · simp [registerConnection, connectionSet]
  · simp [registerConnection]
  · intro s hs he
    refine ⟨?_, ?_, ?_⟩ <;> simp [handleDisconnect, hs, he]
  · intro s hs he
    refine ⟨?_, ?_, ?_⟩ <;> simp [handleDisconnect, hs, he]

/-- Witness for C8 (amended): concrete register of a first connection and the
disconnect that empties the set. -/
theorem presence_register_unregister_behavior_witness :
    ((registerConnection emptyGateway 1 "a" 100).state.connectedUsers 1 =
        some (addUnique (connectionSet emptyGateway 1) "a") ∧
      (registerConnection emptyGateway 1 "a" 100).state.userLastSeen 1 =
        some 100 ∧
      (registerConnection emptyGateway 1 "a" 100).serverEvents = []) ∧
    ((handleDisconnect (registerConnection emptyGateway 1 "a" 100).state
        (some 1) "a" 200).1.connectedUsers 1 = none ∧
      (handleDisconnect (registerConnection emptyGateway 1 "a" 100).state
        (some 1) "a" 200).1.userLastSeen 1 = some 200 ∧
      (handleDisconnect (registerConnection emptyGateway 1 "a" 100).state
        (some 1) "a" 200).2 = []) :=
  ⟨(presence_register_unregister_behavior emptyGateway 1 "a" 100).1,
    (presence_register_unregister_behavior
        (registerConnection emptyGateway 1 "a" 100).state 1 "a" 200).2.1
      (addUnique (connectionSet emptyGateway 1) "a")
      (presence_register_unregister_behavior emptyGateway 1 "a" 100).1.1
      (by decide)⟩

/-! ### C9: heartbeat timeout timers -/

theorem hbInv_step (s : HbState) (e : HbEvent) (hinv : hbInv s)
    (hping : e = .ping → s.pingTimeout = none) : hbInv (hbStep s e) := by
  cases e with
  | ping =>
    have h0 := hping rfl
    unfold hbInv at hinv
    rw [h0] at hinv
    simp only [Option.toList] at hinv
    by_cases hd : s.disconnected = true
    · simp [hbStep, hbPing, hbCleanup, hbInv, h0, hd, hinv]
    · simp [hbStep, hbPing, hbInv, h0, hd, hinv]
  | pong =>
    unfold hbInv at hinv
    match h : s.pingTimeout with
    | some t => simp [hbStep, hbPong, hbInv, h, hinv ▸ (by rw [h]; rfl :
        s.pingTimeout.toList = [t])]
    | none => simp [hbStep, hbPong, hbInv, h, h ▸ hinv]
  | fire =>
    unfold hbInv at hinv
    match h : s.pingTimeout with
    | some t =>
      rw [h] at hinv
      simp only [Option.toList] at hinv
      simp [hbStep, hbFire, hbCleanup, hbInv, h, hinv]
    | none => simp [hbStep, hbFire, hbInv, h, h ▸ hinv]
  | cleanup =>
    unfold hbInv at hinv
    match h : s.pingTimeout with
    | some t =>
      rw [h] at hinv
      simp only [Option.toList] at hinv
      simp [hbStep, hbCleanup, hbInv, h, hinv]
    | none => simp [hbStep, hbCleanup, hbInv, h, h ▸ hinv]

theorem hbInv_run :
    ∀ (es : List HbEvent) (s : HbState), hbInv s → timely s es = true →
      hbInv (hbRun s es) := by
  intro es
  induction es with
  | nil => intro s hinv _; exact hinv
  | cons e rest ih =>
    intro s hinv ht
    simp only [timely, Bool.and_eq_true] at ht
    exact ih (hbStep s e) (hbInv_step s e hinv fun he => by
      have := ht.1
      simp [he] at this
      exact this) ht.2

/-- C9 counterexample.  Right after `setupHeartbeat` the first probe timeout
(timer 0) is pending; delivering the next interval `ping` while it is still
pending arms a second timeout WITHOUT disarming timer 0: afterwards two
timeout timers are armed at once.  This refutes "arming a new probe timeout
disarms any prior timer" and "at most one outstanding timeout timer at all
times". -/
theorem heartbeat_rearm_does_not_disarm :
    (hbSetupHeartbeat hbInit).pingTimeout = some 0 ∧
    0 ∈ (hbStep (hbSetupHeartbeat hbInit) .ping).armed ∧
    (hbStep (hbSetupHeartbeat hbInit) .ping).armed.length = 2 := by decide

/-- C9 (amended).  Receipt of a pong disarms the pending timeout, and cleanup
on connection close cancels both the probe interval and any pending timeout;
but arming a new probe timeout does not disarm a prior timer, so "at most one
outstanding timeout timer" holds only along traces in which no ping is
delivered while a timeout is still pending — which the timer schedule
provides, the timeout bound (15 s) being shorter than the probe interval
(30 s). -/
theorem heartbeat_timer_discipline :
    (∀ (s : HbState) (es : List HbEvent), hbInv s → timely s es = true →
      (hbRun s es).armed.length ≤ 1) ∧
    (∀ (s : HbState) (t : Nat), hbInv s → s.pingTimeout = some t →
      (hbStep s .pong).pingTimeout = none ∧ t ∉ (hbStep s .pong).armed) ∧
    (∀ s : HbState, hbInv s → (hbStep s .cleanup).intervalOn = false ∧
      (hbStep s .cleanup).pingTimeout = none ∧ (hbStep s .cleanup).armed = []) ∧
    hbInv (hbSetupHeartbeat hbInit) ∧
    heartbeatTimeout < heartbeatInterval := by
  refine ⟨?_, ?_, ?_, rfl, by decide⟩
  · intro s es hinv ht
    have h := hbInv_run es s hinv ht
    rw [hbInv] at h
    rw [h]
    cases (hbRun s es).pingTimeout <;> simp
  · intro s t hinv hp
    rw [hbInv, hp] at hinv
    simp only [Option.toList] at hinv
    simp [hbStep, hbPong, hp, hinv]
  · intro s hinv
    rw [hbInv] at hinv
    match h : s.pingTimeout with
    | some t =>
      rw [h] at hinv
      simp only [Option.toList] at hinv
      simp [hbStep, hbCleanup, h, hinv]
    | none => simp [hbStep, hbCleanup, h, h ▸ hinv]

/-- Witness for C9 (amended): a concrete timely trace (pong, next ping,
timeout fires) starting right after `setupHeartbeat`, and the concrete
disarm/cancel effects. -/
theorem heartbeat_timer_discipline_witness :
    (hbRun (hbSetupHeartbeat hbInit)
        [HbEvent.pong, HbEvent.ping, HbEvent.fire]).armed.length ≤ 1 ∧
    ((hbStep (hbSetupHeartbeat hbInit) .pong).pingTimeout = none ∧
      0 ∉ (hbStep (hbSetupHeartbeat hbInit) .pong).armed) ∧
    ((hbStep (hbSetupHeartbeat hbInit) .cleanup).intervalOn = false ∧
      (hbStep (hbSetupHeartbeat hbInit) .cleanup).pingTimeout = none ∧
      (hbStep (hbSetupHeartbeat hbInit) .cleanup).armed = []) :=
  ⟨heartbeat_timer_discipline.1 (hbSetupHeartbeat hbInit)
      [HbEvent.pong, HbEvent.ping, HbEvent.fire] rfl (by decide),
    heartbeat_timer_discipline.2.1 (hbSetupHeartbeat hbInit) 0 rfl rfl,
    heartbeat_timer_discipline.2.2.1 (hbSetupHeartbeat hbInit) rfl⟩

/-! ### C3: recipient messaging policy gates every direct send -/

/-- C3.  In a direct conversation, every call to `sendMessage` consults the
recipient's current `whoCanMessage` setting (the lookup is part of the call,
so it is never cached across sends): with `"nobody"` the send fails with the
policy error for every sender; with `"friends"` and no accepted friendship in
either direction it fails the same way; with `"friends"` and an accepted
friendship present in the current store the send succeeds. -/
theorem send_policy_reconsulted (db : Db) (chatId userId : Nat)
    (content : String) (hasFile : Bool) (replyToId : Option Nat) (pf : Bool)
    (chat : ChatRec) (om : ChatMemberRec) (stg : SettingsRec)
    (hlen : content.length ≤ 10000)
    (hval : jsTrim content ≠ "" ∨ hasFile = true)
    (hmem : db.chatMembers.any
      (fun m => m.chatId = chatId && m.userId = userId) = true)
    (hchat : db.chats.find? (fun c => c.id = chatId) = some chat)
    (hdir : chat.type = "direct")
    (hom : (db.chatMembers.filter fun m => m.chatId = chatId).find?
      (fun m => !(m.userId = userId)) = some om)
    (hset : db.userSettings.find? (fun s => s.userId = om.userId) =
      some stg) :
    (stg.whoCanMessage = "nobody" →
      sendMessage db chatId userId content hasFile replyToId pf =
        (db, .error .policyForbidden)) ∧
    (stg.whoCanMessage = "friends" →
      acceptedFriends db userId om.userId = false →
      sendMessage db chatId userId content hasFile replyToId pf =
        (db, .error .policyForbidden)) ∧
    (stg.whoCanMessage = "friends" →
      acceptedFriends db userId om.userId = true →
      replyToId = none → pf = false →
      ∃ m, (sendMessage db chatId userId content hasFile replyToId pf).2 =
          .ok m ∧ m.senderId = userId ∧ m.chatId = chatId) := by
  have h1 : ¬(content.length > 10000) := Nat.not_lt.mpr hlen
  have h2 : (jsTrim content = "" && !hasFile) = false := by
    rcases hval with h | h <;> simp [h]
  refine ⟨?_, ?_, ?_⟩
  · intro hn
    simp [sendMessage, directPolicyViolated, h1, h2, hmem, hchat, hdir, hom, hset, hn]
  · intro hf ha
    simp [sendMessage, directPolicyViolated, h1, h2, hmem, hchat, hdir, hom, hset, hf, ha]
  · intro hf ha hr hp
    subst hr hp
    refine ⟨⟨db.nextMessageId, chatId, userId, content,
      if hasFile then some db.nextFileId else none, none⟩, ?_, rfl, rfl⟩
    by_cases hfl : hasFile = true
    · simp [sendMessage, directPolicyViolated, h1, h2, hmem, hchat, hdir, hom, hset, hf, ha, hfl]
    · rw [Bool.not_eq_true] at hfl
      have h2' : ¬(jsTrim content = "") := by simpa [hfl] using h2
      simp [sendMessage, directPolicyViolated, h1, h2', hmem, hchat, hdir, hom, hset, hf, ha, hfl]

/-- Witness for C3: the three policy scenarios at concrete stores — the
same sender is refused under `"nobody"`, refused under `"friends"` without a
friendship, and succeeds once an accepted friendship exists. -/
theorem send_policy_reconsulted_witness :
    sendMessage c3dbNobody 1 10 "hi" true none false =
      (c3dbNobody, .error .policyForbidden) ∧
    sendMessage c3dbFriendsNoF 1 10 "hi" true none false =
      (c3dbFriendsNoF, .error .policyForbidden) ∧
    ∃ m, (sendMessage c3dbFriends 1 10 "hi" true none false).2 = .ok m ∧
      m.senderId = 10 ∧ m.chatId = 1 :=
  ⟨(send_policy_reconsulted c3dbNobody 1 10 "hi" true none false
      ⟨1, "direct"⟩ ⟨1, 20⟩ ⟨20, "nobody"⟩ (by decide) (Or.inr rfl) rfl rfl
      rfl rfl rfl).1 rfl,
    (send_policy_reconsulted c3dbFriendsNoF 1 10 "hi" true none false
      ⟨1, "direct"⟩ ⟨1, 20⟩ ⟨20, "friends"⟩ (by decide) (Or.inr rfl) rfl rfl
      rfl rfl rfl).2.1 rfl rfl,
    (send_policy_reconsulted c3dbFriends 1 10 "hi" true none false
      ⟨1, "direct"⟩ ⟨1, 20⟩ ⟨20, "friends"⟩ (by decide) (Or.inr rfl) rfl rfl
      rfl rfl rfl).2.2 rfl rfl rfl rfl⟩

/-! ### C4: attachment upload versus persistence failure -/

/-- C4 counterexample.  A send with an attachment whose message persistence
fails: the upload has happened (object 0 is in storage) and the failure is
reported, but the uploaded object is STILL in storage afterwards — no
compensating deletion exists in `sendMessage`, so the attachment is left
orphaned, refuting the claim that it is deleted. -/
theorem send_attachment_orphaned_on_failure :
    (sendMessage c4db 1 10 "hi" true none true).2 =
      .error .persistenceFailure ∧
    (sendMessage c4db 1 10 "hi" true none true).1.storedFiles = [0] :=
  ⟨rfl, rfl⟩

/-- C4 (amended).  The attachment is uploaded through the storage
collaborator before the message row is created — on success the created
message references the freshly uploaded object — but when message
persistence subsequently fails there is no compensating cleanup: the
already-uploaded object remains in storage, orphaned. -/
theorem send_upload_before_persist (db : Db) (chatId userId : Nat)
    (content : String) (replyToId : Option Nat) :
    ((sendMessage db chatId userId content true replyToId true).2 =
        .error .persistenceFailure →
      db.nextFileId ∈
        (sendMessage db chatId userId content true replyToId true).1.storedFiles) ∧
    (∀ m, (sendMessage db chatId userId content true replyToId false).2 =
        .ok m →
      m.fileId = some db.nextFileId ∧
      db.nextFileId ∈
        (sendMessage db chatId userId content true replyToId false).1.storedFiles) := by
  constructor
  · intro h
    unfold sendMessage at h ⊢
    split_ifs at h ⊢ <;> simp_all
  · intro m h
    unfold sendMessage at h ⊢
    split_ifs at h ⊢ <;>
      first
        | (simp at h; done)
        | (cases Except.ok.inj h; exact ⟨rfl, by simp⟩)
        | simp_all

/-- Witness for C4 (amended): concrete runs with and without the injected
persistence failure. -/
theorem send_upload_before_persist_witness :
    (0 : Nat) ∈ (sendMessage c4db 1 10 "hi" true none true).1.storedFiles ∧
    ((sendMessage c4db 1 10 "hi" true none false).2 =
        .ok ⟨0, 1, 10, "hi", some 0, none⟩ →
      (⟨0, 1, 10, "hi", some 0, none⟩ : MessageRec).fileId = some 0 ∧
      (0 : Nat) ∈ (sendMessage c4db 1 10 "hi" true none false).1.storedFiles) :=
  ⟨(send_upload_before_persist c4db 1 10 "hi" none).1 rfl,
    (send_upload_before_persist c4db 1 10 "hi" none).2
      ⟨0, 1, 10, "hi", some 0, none⟩⟩

/-! ### C5: read receipts -/

theorem insertReads_mem_base (batch : List ReadRec) :
    ∀ (reads : List ReadRec) (r : ReadRec), r ∈ reads →
      r ∈ insertReads reads batch := by
  induction batch with
  | nil => intro reads r h; exact h
  | cons b rest ih =>
    intro reads r h
    unfold insertReads
    simp only [List.foldl_cons]
    by_cases hb : b ∈ reads
    · rw [if_pos hb]; exact ih reads r h
    · rw [if_neg hb]; exact ih (reads ++ [b]) r (by simp [h])

theorem insertReads_mem_batch (batch : List ReadRec) :
    ∀ (reads : List ReadRec) (r : ReadRec), r ∈ batch →
      r ∈ insertReads reads batch := by
  induction batch with
  | nil => intro reads r h; cases h
  | cons b rest ih =>
    intro reads r h
    unfold insertReads
    simp only [List.foldl_cons]
    rcases List.mem_cons.mp h with rfl | h
    · by_cases hb : r ∈ reads
      · rw [if_pos hb]; exact insertReads_mem_base rest reads r hb
      · rw [if_neg hb]
        exact insertReads_mem_base rest (reads ++ [r]) r (by simp)
    · by_cases hb : b ∈ reads
      · rw [if_pos hb]; exact ih reads r h
      · rw [if_neg hb]; exact ih (reads ++ [b]) r h

theorem insertReads_nodup (batch : List ReadRec) :
    ∀ reads : List ReadRec, reads.Nodup → (insertReads reads batch).Nodup := by
  induction batch with
  | nil => intro reads h; exact h
  | cons b rest ih =>
    intro reads h
    unfold insertReads
    simp only [List.foldl_cons]
    by_cases hb : b ∈ reads
    · rw [if_pos hb]; exact ih reads h
    · rw [if_neg hb]
      exact ih (reads ++ [b]) (by simp [List.nodup_append, h, hb])

theorem markRead_of_no_unread (db : Db) (chatId userId : Nat)
    (hm : db.chatMembers.any
      (fun m => m.chatId = chatId && m.userId = userId) = true)
    (hu : unreadFor db chatId userId = []) :
    (markMessagesAsRead db chatId userId).2 = .ok (0, []) := by
  unfold markMessagesAsRead
  rw [hm]
  simp [hu]

/-- C5.  `markMessagesAsRead` returns exactly the ids of those messages of
the conversation authored by someone other than the reader that had no
receipt for the reader yet (in particular a message authored by the reader
is never among them); the receipt table stays duplicate-free (at most one
receipt per (message, reader) pair); and a second call immediately after
yields zero newly-read ids. -/
theorem markRead_receipts (db : Db) (chatId userId : Nat)
    (hmem : db.chatMembers.any
      (fun m => m.chatId = chatId && m.userId = userId) = true)
    (hnd : db.messageReads.Nodup)
    (hids : (db.messages.map fun m => m.id).Nodup) :
    (∃ ids, (markMessagesAsRead db chatId userId).2 = .ok (ids.length, ids) ∧
      (∀ mid, mid ∈ ids ↔ ∃ m ∈ db.messages, m.id = mid ∧
        m.chatId = chatId ∧ ¬(m.senderId = userId) ∧
        ¬∃ r ∈ db.messageReads, r.messageId = mid ∧ r.userId = userId) ∧
      ∀ m ∈ db.messages, m.senderId = userId → m.id ∉ ids) ∧
    (markMessagesAsRead (markMessagesAsRead db chatId userId).1 chatId
        userId).2 = .ok (0, []) ∧
    (markMessagesAsRead db chatId userId).1.messageReads.Nodup := by
  by_cases hu : unreadFor db chatId userId = []
  · have h1 : markMessagesAsRead db chatId userId = (db, .ok (0, [])) := by
      unfold markMessagesAsRead
      rw [hmem]
      simp [hu]
    have hchar : ∀ m ∈ db.messages,
        ¬(m.chatId = chatId && !(m.senderId = userId) &&
          !(db.messageReads.any fun r =>
            r.messageId = m.id && r.userId = userId)) = true := by
      simpa [unreadFor, List.filter_eq_nil_iff] using hu
    refine ⟨⟨[], ?g1, ?g2, ?g3⟩, ?g4, ?g5⟩
    case g1 => rw [h1]; rfl
    case g3 => simp
    case g4 => simp [h1]
    case g5 => simp [h1, hnd]
    intro mid
    simp only [List.not_mem_nil, false_iff]
    rintro ⟨m, hm, rfl, hc, hs, hr⟩
    apply hchar m hm
    simp only [Bool.and_eq_true, decide_eq_true_eq, Bool.not_eq_true',
      List.any_eq_false]
    refine ⟨⟨hc, by simpa using hs⟩, ?_⟩
    intro r hrr
    rintro ⟨h1', h2'⟩
    exact hr ⟨r, hrr, h1', h2'⟩
  · have h1 : markMessagesAsRead db chatId userId =
        ({ db with
           messageReads := insertReads db.messageReads
             ((unreadFor db chatId userId).map fun m => ⟨m.id, userId⟩) },
          .ok ((unreadFor db chatId userId).length,
            (unreadFor db chatId userId).map fun m => m.id)) := by
      unfold markMessagesAsRead
      rw [hmem]
      simp [hu]
    refine ⟨⟨(unreadFor db chatId userId).map fun m => m.id,
      ?k1, ?k2, ?k3⟩, ?k4, ?k5⟩
    case k1 => rw [h1]; simp
    case k5 =>
      rw [h1]
      exact insertReads_nodup _ _ hnd
    case k2 =>
      intro mid
      constructor
      · intro hmid
        rcases List.mem_map.mp hmid with ⟨m, hm, rfl⟩
        obtain ⟨hmm, hp⟩ := List.mem_filter.mp hm
        simp only [Bool.and_eq_true, decide_eq_true_eq, Bool.not_eq_true',
          List.any_eq_false, Bool.not_eq_true] at hp
        refine ⟨m, hmm, rfl, hp.1.1, by simpa using hp.1.2, ?_⟩
        rintro ⟨r, hrr, h1', h2'⟩
        have := hp.2 r hrr
        simp [h1', h2'] at this
      · rintro ⟨m, hm, rfl, hc, hs, hr⟩
        refine List.mem_map.mpr ⟨m, List.mem_filter.mpr ⟨hm, ?_⟩, rfl⟩
        simp only [Bool.and_eq_true, decide_eq_true_eq, Bool.not_eq_true',
          List.any_eq_false, Bool.not_eq_true]
        refine ⟨⟨hc, by simpa using hs⟩, ?_⟩
        intro r hrr
        rintro ⟨h1', h2'⟩
        exact hr ⟨r, hrr, h1', h2'⟩
    case k3 =>
      intro m hm hs hcontra
      rcases List.mem_map.mp hcontra with ⟨m', hm', hid⟩
      obtain ⟨hm'm, hp⟩ := List.mem_filter.mp hm'
      have heq : m' = m := List.inj_on_of_nodup_map hids hm'm hm hid
      subst heq
      simp [hs] at hp
    case k4 =>
      -- second call: every previously-unread message now has a receipt
      have hunread2 :
          unreadFor (markMessagesAsRead db chatId userId).1 chatId userId
            = [] := by
        rw [h1]
        unfold unreadFor
        rw [List.filter_eq_nil_iff]
        intro m hm
        simp only [Bool.and_eq_true, decide_eq_true_eq, Bool.not_eq_true',
          List.any_eq_false, decide_eq_false_iff_not]
        rintro ⟨⟨hc, hs⟩, hnone⟩
        by_cases hin : ∃ r ∈ db.messageReads,
            r.messageId = m.id ∧ r.userId = userId
        · rcases hin with ⟨r, hrr, hr1, hr2⟩
          exact hnone r (insertReads_mem_base _ db.messageReads r hrr)
            ⟨hr1, hr2⟩
        · have hmu : m ∈ unreadFor db chatId userId := by
            refine List.mem_filter.mpr ⟨hm, ?_⟩
            simp only [Bool.and_eq_true, decide_eq_true_eq,
              Bool.not_eq_true', List.any_eq_false, decide_eq_false_iff_not]
            exact ⟨⟨hc, hs⟩, fun r hrr hrp => hin ⟨r, hrr, hrp⟩⟩
          exact hnone ⟨m.id, userId⟩
            (insertReads_mem_batch _ db.messageReads ⟨m.id, userId⟩
              (List.mem_map.mpr ⟨m, hmu, rfl⟩)) ⟨rfl, rfl⟩
      exact markRead_of_no_unread _ chatId userId (by rw [h1]; exact hmem)
        hunread2

/-- Witness for C5 at the concrete store `c5db` with reader 10. -/
theorem markRead_receipts_witness :
    (∃ ids, (markMessagesAsRead c5db 1 10).2 = .ok (ids.length, ids) ∧
      (∀ mid, mid ∈ ids ↔ ∃ m ∈ c5db.messages, m.id = mid ∧
        m.chatId = 1 ∧ ¬(m.senderId = 10) ∧
        ¬∃ r ∈ c5db.messageReads, r.messageId = mid ∧ r.userId = 10) ∧
      ∀ m ∈ c5db.messages, m.senderId = 10 → m.id ∉ ids) ∧
    (markMessagesAsRead (markMessagesAsRead c5db 1 10).1 1 10).2 =
      .ok (0, []) ∧
    (markMessagesAsRead c5db 1 10).1.messageReads.Nodup :=
  markRead_receipts c5db 1 10 (by decide) (by decide) (by decide)

/-! ### C6: notification dedup windows -/

/-- C6.  A post-like (resp. post-comment) event targeting a recipient
creates a new notification record and pushes it to the recipient's personal
channel exactly when no record with the same (recipient, type, sourceId)
exists within the type-specific window — 24 h for likes, 5 min for
comments; otherwise it is suppressed silently (no new record, no fan-out).
Consequently liking the same post twice within the window produces exactly
one notification record. -/
theorem notification_dedup :
    (∀ (notifs : List NotifRec) (now : Int) (r : Nat) (name : String)
        (p : Nat) (n : NotifRec), n ∈ notifs → n.userId = r →
      n.type = "post_like" → n.sourceId = toString p →
      now - likeWindow ≤ n.createdAt →
      notifyPostLike notifs now r name p = (notifs, [])) ∧
    (∀ (notifs : List NotifRec) (now : Int) (r : Nat) (name : String)
        (p : Nat),
      (∀ n ∈ notifs, ¬(n.userId = r ∧ n.type = "post_like" ∧
        n.sourceId = toString p ∧ now - likeWindow ≤ n.createdAt)) →
      notifyPostLike notifs now r name p =
        (notifs ++ [⟨r, "post_like", toString p,
          name ++ " оценил ваш пост", false, now⟩],
          [(Room.user r, "notification")])) ∧
    (∀ (notifs : List NotifRec) (now : Int) (r : Nat) (name : String)
        (p : Nat) (n : NotifRec), n ∈ notifs → n.userId = r →
      n.type = "post_comment" → n.sourceId = toString p →
      now - commentWindow ≤ n.createdAt →
      notifyPostComment notifs now r name p = (notifs, [])) ∧
    (∀ (notifs : List NotifRec) (now : Int) (r : Nat) (name : String)
        (p : Nat),
      (∀ n ∈ notifs, ¬(n.userId = r ∧ n.type = "post_comment" ∧
        n.sourceId = toString p ∧ now - commentWindow ≤ n.createdAt)) →
      notifyPostComment notifs now r name p =
        (notifs ++ [⟨r, "post_comment", toString p,
          name ++ " прокомментировал ваш пост", false, now⟩],
          [(Room.user r, "notification")])) ∧
    (∀ (notifs : List NotifRec) (now₁ now₂ : Int) (r : Nat)
        (name₁ name₂ : String) (p : Nat),
      (notifs.filter fun n => n.userId = r && n.type = "post_like" &&
        n.sourceId = toString p) = [] →
      now₂ - likeWindow ≤ now₁ →
      ((notifyPostLike (notifyPostLike notifs now₁ r name₁ p).1 now₂ r
          name₂ p).1.filter fun n => n.userId = r &&
          n.type = "post_like" && n.sourceId = toString p).length = 1) := by
  have hlikeS : ∀ (notifs : List NotifRec) (now : Int) (r : Nat)
      (name : String) (p : Nat) (n : NotifRec), n ∈ notifs → n.userId = r →
      n.type = "post_like" → n.sourceId = toString p →
      now - likeWindow ≤ n.createdAt →
      notifyPostLike notifs now r name p = (notifs, []) := by
    intro notifs now r name p n hn h1 h2 h3 h4
    cases hfind : notifs.find? (fun n => n.userId = r &&
        n.type = "post_like" && n.sourceId = toString p &&
        now - likeWindow ≤ n.createdAt) with
    | some x =>
      unfold notifyPostLike
      rw [hfind]
    | none =>
      exfalso
      apply List.find?_eq_none.mp hfind n hn
      simp [h1, h2, h3, h4]
  have hlikeC : ∀ (notifs : List NotifRec) (now : Int) (r : Nat)
      (name : String) (p : Nat),
      (∀ n ∈ notifs, ¬(n.userId = r ∧ n.type = "post_like" ∧
        n.sourceId = toString p ∧ now - likeWindow ≤ n.createdAt)) →
      notifyPostLike notifs now r name p =
        (notifs ++ [⟨r, "post_like", toString p,
          name ++ " оценил ваш пост", false, now⟩],
          [(Room.user r, "notification")]) := by
    intro notifs now r name p hnone
    have hfind : notifs.find? (fun n => n.userId = r &&
        n.type = "post_like" && n.sourceId = toString p &&
        now - likeWindow ≤ n.createdAt) = none := by
      rw [List.find?_eq_none]
      intro x hx
      simp only [Bool.and_eq_true, decide_eq_true_eq]
      rintro ⟨⟨⟨a, b⟩, c⟩, d⟩
      exact hnone x hx ⟨a, b, c, d⟩
    unfold notifyPostLike
    rw [hfind]
    simp [createNotification]
  have hcomS : ∀ (notifs : List NotifRec) (now : Int) (r : Nat)
      (name : String) (p : Nat) (n : NotifRec), n ∈ notifs → n.userId = r →
      n.type = "post_comment" → n.sourceId = toString p →
      now - commentWindow ≤ n.createdAt →
      notifyPostComment notifs now r name p = (notifs, []) := by
    intro notifs now r name p n hn h1 h2 h3 h4
    cases hfind : notifs.find? (fun n => n.userId = r &&
        n.type = "post_comment" && n.sourceId = toString p &&
        now - commentWindow ≤ n.createdAt) with
    | some x =>
      unfold notifyPostComment
      rw [hfind]
    | none =>
      exfalso
      apply List.find?_eq_none.mp hfind n hn
      simp [h1, h2, h3, h4]
  have hcomC : ∀ (notifs : List NotifRec) (now : Int) (r : Nat)
      (name : String) (p : Nat),
      (∀ n ∈ notifs, ¬(n.userId = r ∧ n.type = "post_comment" ∧
        n.sourceId = toString p ∧ now - commentWindow ≤ n.createdAt)) →
      notifyPostComment notifs now r name p =
        (notifs ++ [⟨r, "post_comment", toString p,
          name ++ " прокомментировал ваш пост", false, now⟩],
          [(Room.user r, "notification")]) := by
    intro notifs now r name p hnone
    have hfind : notifs.find? (fun n => n.userId = r &&
        n.type = "post_comment" && n.sourceId = toString p &&
        now - commentWindow ≤ n.createdAt) = none := by
      rw [List.find?_eq_none]
      intro x hx
      simp only [Bool.and_eq_true, decide_eq_true_eq]
      rintro ⟨⟨⟨a, b⟩, c⟩, d⟩
      exact hnone x hx ⟨a, b, c, d⟩
    unfold notifyPostComment
    rw [hfind]
    simp [createNotification]
  refine ⟨hlikeS, hlikeC, hcomS, hcomC, ?_⟩
  intro notifs now₁ now₂ r name₁ name₂ p hfil hwin
  have hmatches : ∀ n ∈ notifs, ¬(n.userId = r ∧ n.type = "post_like" ∧
      n.sourceId = toString p ∧ now₁ - likeWindow ≤ n.createdAt) := by
    intro n hn hcon
    apply List.filter_eq_nil_iff.mp hfil n hn
    simp [hcon.1, hcon.2.1, hcon.2.2.1]
  have h1 := hlikeC notifs now₁ r name₁ p hmatches
  have h2 := hlikeS
    (notifs ++ [⟨r, "post_like", toString p,
      name₁ ++ " оценил ваш пост", false, now₁⟩]) now₂ r name₂ p
    ⟨r, "post_like", toString p, name₁ ++ " оценил ваш пост", false, now₁⟩
    (by simp) rfl rfl rfl hwin
  rw [h1]
  dsimp only
  rw [h2]
  dsimp only
  rw [List.filter_append, hfil]
  simp

/-- Witness for C6 at concrete inputs: a fresh like notification, its
suppression one hour later, a comment creation and suppression, and the
exactly-one-record property of a double like. -/
theorem notification_dedup_witness :
    notifyPostLike [⟨2, "post_like", "7", "c", false, 1000⟩] 2000 2 "L" 7 =
      ([⟨2, "post_like", "7", "c", false, 1000⟩], []) ∧
    notifyPostLike [] 1000 2 "L" 7 =
      ([⟨2, "post_like", "7", "L оценил ваш пост", false, 1000⟩],
        [(Room.user 2, "notification")]) ∧
    notifyPostComment [⟨2, "post_comment", "7", "c", false, 1000⟩] 2000 2
        "K" 7 = ([⟨2, "post_comment", "7", "c", false, 1000⟩], []) ∧
    notifyPostComment [] 1000 2 "K" 7 =
      ([⟨2, "post_comment", "7", "K прокомментировал ваш пост", false,
        1000⟩], [(Room.user 2, "notification")]) ∧
    ((notifyPostLike (notifyPostLike [] 1000 2 "L" 7).1 2000 2 "L" 7).1.filter
      fun n => n.userId = 2 && n.type = "post_like" &&
        n.sourceId = toString 7).length = 1 :=
  ⟨notification_dedup.1 _ 2000 2 "L" 7
      ⟨2, "post_like", "7", "c", false, 1000⟩ (by simp) rfl rfl rfl
      (by decide),
    notification_dedup.2.1 [] 1000 2 "L" 7 (by simp),
    notification_dedup.2.2.1 _ 2000 2 "K" 7
      ⟨2, "post_comment", "7", "c", false, 1000⟩ (by simp) rfl rfl rfl
      (by decide),
    notification_dedup.2.2.2.1 [] 1000 2 "K" 7 (by simp),
    notification_dedup.2.2.2.2 [] 1000 2000 2 "L" "L" 7 (by simp)
      (by decide)⟩

/-! ### C7: removal of notification records when content is deleted -/

/-- C7.  Evidence at the concrete store `c7db`.  Unliking does remove the
like-notification record, so a re-like within the window notifies again.
But deleting a comment does NOT remove the comment-notification record:
user 1 comments on post 7 (creating comment 5 and the notification record
(2, "post_comment", "7")), deletes the comment — the comment row is gone
yet the record survives, because `deleteComment` filters on
`type = "comment"` and `sourceId = commentId` while the record was created
with `type = "post_comment"` and `sourceId = postId` — and a follow-up
comment event one minute later is still suppressed by the stale record. -/
theorem comment_notification_survives_delete :
    (createComment c7db 1000 1 7 "hello").1.notifications =
      [⟨2, "post_comment", "7", "U прокомментировал ваш пост", false,
        1000⟩] ∧
    (deleteComment (createComment c7db 1000 1 7 "hello").1 1 5).1.comments =
      [] ∧
    (deleteComment (createComment c7db 1000 1 7 "hello").1 1
        5).1.notifications =
      [⟨2, "post_comment", "7", "U прокомментировал ваш пост", false,
        1000⟩] ∧
    notifyPostComment
        (deleteComment (createComment c7db 1000 1 7 "hello").1 1
          5).1.notifications 61000 2 "U" 7 =
      ((deleteComment (createComment c7db 1000 1 7 "hello").1 1
        5).1.notifications, []) ∧
    (toggleLike c7db 1000 1 7).1.notifications =
      [⟨2, "post_like", "7", "U оценил ваш пост", false, 1000⟩] ∧
    (toggleLike (toggleLike c7db 1000 1 7).1 2000 1 7).1.notifications =
      [] ∧
    (toggleLike (toggleLike (toggleLike c7db 1000 1 7).1 2000 1 7).1 3000 1
        7).2.1 = [(Room.user 2, "notification")] :=
  ⟨rfl, rfl, rfl, rfl, rfl, rfl, rfl⟩

/-! ### C10: delivery multiplicity of `message:new` -/

theorem count_flatMap_events (rs : List Room) (s : String)
    (hs : s = "message:new" ∨ s = "conversation:updated") :
    ∀ members : List Nat,
      (((members.flatMap fun m =>
          [((Room.user m : Room), "message:new"),
            (Room.user m, "conversation:updated")]).filter
        (fun e => e.1 ∈ rs)).map (fun e => e.2)).count s =
      (members.filter fun m => Room.user m ∈ rs).length := by
  intro members
  induction members with
  | nil => simp
  | cons a rest ih =>
    by_cases ha : Room.user a ∈ rs
    · rcases hs with rfl | rfl <;>
        simp [List.flatMap_cons, List.filter_cons, List.filter_append,
          List.map_append, List.count_append, List.count_cons, ha, ih,
          Nat.add_comm]
    · simp [List.flatMap_cons, List.filter_cons, List.filter_append,
        List.map_append, List.count_append, ha, ih]

/-- C10.  For a send into a conversation, a recipient connection joined to
both the conversation room and its owner's personal room receives
`message:new` twice — once via the conversation-room broadcast and once via
the personal room — and every member's personal room receives
`conversation:updated` exactly once. -/
theorem message_double_delivery (chatId : Nat) (members : List Nat)
    (m : Nat) (hnd : members.Nodup) (hm : m ∈ members) :
    (deliveredTo [Room.chat chatId, Room.user m]
      (handleMessageEmits chatId members)).count "message:new" = 2 ∧
    ∀ m' ∈ members,
      (deliveredTo [Room.user m'] (handleMessageEmits chatId members)).count
        "conversation:updated" = 1 := by
  have hcount : ∀ x ∈ members, (members.filter fun y => y = x).length = 1 :=
    by
    intro x hx
    have h1 : members.count x = 1 := List.count_eq_one_of_mem hnd hx
    rw [List.count, List.countP_eq_length_filter] at h1
    simpa using h1
  constructor
  · have h := count_flatMap_events [Room.chat chatId, Room.user m]
      "message:new" (Or.inl rfl) members
    have hfc : (members.filter
        fun a => Room.user a ∈ [Room.chat chatId, Room.user m]) =
        members.filter fun a => a = m := by
      apply List.filter_congr
      intro a _
      simp
    rw [hfc, hcount m hm] at h
    simp only [deliveredTo, handleMessageEmits]
    rw [List.filter_cons_of_pos (by simp), List.map_cons,
      List.count_cons_self, h]
  · intro m' hm'
    have h := count_flatMap_events [Room.user m'] "conversation:updated"
      (Or.inr rfl) members
    have hfc : (members.filter fun a => Room.user a ∈ [Room.user m']) =
        members.filter fun a => a = m' := by
      apply List.filter_congr
      intro a _
      simp
    rw [hfc, hcount m' hm'] at h
    simp only [deliveredTo, handleMessageEmits]
    rw [List.filter_cons_of_neg (by simp), h]

/-- Witness for C10: chat 1 with members 10 and 20; member 20's connection,
joined to the chat room and its personal room, receives `message:new` twice
and each member's personal room sees one `conversation:updated`. -/
theorem message_double_delivery_witness :
    (deliveredTo [Room.chat 1, Room.user 20]
      (handleMessageEmits 1 [10, 20])).count "message:new" = 2 ∧
    ∀ m' ∈ [10, 20],
      (deliveredTo [Room.user m'] (handleMessageEmits 1 [10, 20])).count
        "conversation:updated" = 1 :=
  message_double_delivery 1 [10, 20] 20 (by decide) (by decide)

end SocialApp
